import Mathlib

/-!
Verification of the Astro actions middleware (request-interception layer).

The development shallowly embeds the middleware source file:
  * the authenticated result codec (`encodeResult` / `decodeResult`),
    with concrete models of the hex and base64 encodings it composes,
    parameterised over the external AES-GCM cipher and the JSON
    serialiser (external platform collaborators);
  * the invocation dispatcher `onRequest` together with its handlers
    `handlePost`, `handleResult`, `handlePostLegacy`,
    `nextWithStaticStub` and `nextWithLocalsStub`, as a pure function
    from a request description to an outcome, final request-locals and
    an effect trace.
-/

namespace AstroActions

/-- JSON values, the payload type carried by action results.  Numbers are
modelled as integers (the claims never depend on float behaviour). -/
inductive Json where
  | null : Json
  | bool (b : Bool) : Json
  | num (n : Int) : Json
  | str (s : String) : Json
  | arr (elems : List Json) : Json
  | obj (fields : List (String × Json)) : Json

/-- The tagged union of action outcomes produced by `callSafely`:
either a success carrying JSON data, or an error carrying an HTTP
status, an error-kind name and a message (spec section 3). -/
inductive ActionResult where
  | ok (data : Json) : ActionResult
  | error (status : Nat) (type : String) (message : String) : ActionResult

/-- Truthiness of `ActionResult.error` as tested by
`if (actionResult.error)` in `handleResult`. -/
def ActionResult.isError : ActionResult → Bool
  | ActionResult.ok _ => false
  | ActionResult.error _ _ _ => true

/-! ### Hex encoding (`encodeHex` / `decodeHex` from oslo/encoding)

Bytes are natural numbers; well-formed bytes are `< 256`. -/

/-- Lower-case hex digit for a value `< 16`. -/
def hexDigitChar (n : Nat) : Char :=
  match n with
  | 0 => '0' | 1 => '1' | 2 => '2' | 3 => '3'
  | 4 => '4' | 5 => '5' | 6 => '6' | 7 => '7'
  | 8 => '8' | 9 => '9' | 10 => 'a' | 11 => 'b'
  | 12 => 'c' | 13 => 'd' | 14 => 'e' | _ => 'f'

/-- Two hex digits of a byte, most significant first. -/
def encodeHexByte (b : Nat) : List Char :=
  [hexDigitChar (b / 16), hexDigitChar (b % 16)]

/-- Hex encoding of a byte sequence. -/
def encodeHex (bs : List Nat) : List Char :=
  bs.flatMap encodeHexByte

/-- Value of one hex digit character, by code-point ranges. -/
def decodeHexDigit (c : Char) : Option Nat :=
  if '0' ≤ c ∧ c ≤ '9' then some (c.toNat - '0'.toNat)
  else if 'a' ≤ c ∧ c ≤ 'f' then some (c.toNat - 'a'.toNat + 10)
  else if 'A' ≤ c ∧ c ≤ 'F' then some (c.toNat - 'A'.toNat + 10)
  else none

/-- Hex decoding: consumes the characters two at a time, failing on an
odd-length input or a non-hex character. -/
def decodeHex : List Char → Option (List Nat)
  | [] => some []
  | c1 :: c2 :: rest =>
    (decodeHexDigit c1).bind fun hi =>
    (decodeHexDigit c2).bind fun lo =>
    (decodeHex rest).map fun tl => (hi * 16 + lo) :: tl
  | _ => none

/-! ### Base64 encoding (`base64.encode` / `base64.decode` from oslo/encoding)

Standard base64 with padding: three bytes become four alphabet
characters; a trailing group of one or two bytes is padded with
one or two `=` characters. -/

/-- The base64 alphabet, in index order. -/
def b64Alphabet : List Char :=
  ['A', 'B', 'C', 'D', 'E', 'F', 'G', 'H', 'I', 'J', 'K', 'L', 'M',
   'N', 'O', 'P', 'Q', 'R', 'S', 'T', 'U', 'V', 'W', 'X', 'Y', 'Z',
   'a', 'b', 'c', 'd', 'e', 'f', 'g', 'h', 'i', 'j', 'k', 'l', 'm',
   'n', 'o', 'p', 'q', 'r', 's', 't', 'u', 'v', 'w', 'x', 'y', 'z',
   '0', '1', '2', '3', '4', '5', '6', '7', '8', '9', '+', '/']

/-- Alphabet character of a 6-bit value. -/
def b64Char (n : Nat) : Char :=
  b64Alphabet.getD n 'A'

/-- Index of an alphabet character; `none` for characters outside the
alphabet (in particular for the padding character). -/
def b64Index (c : Char) : Option Nat :=
  let i := b64Alphabet.indexOf c
  if i < 64 then some i else none

/-- Base64 encoding of a byte sequence, processing three bytes at a
time and padding the final partial group. -/
def base64encode : List Nat → List Char
  | [] => []
  | [a] => [b64Char (a / 4), b64Char (a % 4 * 16), '=', '=']
  | [a, b] => [b64Char (a / 4), b64Char (a % 4 * 16 + b / 16), b64Char (b % 16 * 4), '=']
  | a :: b :: c :: rest =>
    b64Char (a / 4) :: b64Char (a % 4 * 16 + b / 16) ::
      b64Char (b % 16 * 4 + c / 64) :: b64Char (c % 64) :: base64encode rest

/-- Base64 decoding: consumes four characters at a time, accepting
padding only at the very end, and fails on any character outside the
alphabet or on a truncated group. -/
def base64decode : List Char → Option (List Nat)
  | [] => some []
  | c1 :: c2 :: c3 :: c4 :: rest =>
    (b64Index c1).bind fun n1 =>
    (b64Index c2).bind fun n2 =>
    if c3 = '=' then
      if c4 = '=' ∧ rest = [] then some [n1 * 4 + n2 / 16] else none
    else
      (b64Index c3).bind fun n3 =>
      if c4 = '=' then
        if rest = [] then some [n1 * 4 + n2 / 16, n2 % 16 * 16 + n3 / 4] else none
      else
        (b64Index c4).bind fun n4 =>
        (base64decode rest).map fun tl =>
          (n1 * 4 + n2 / 16) :: (n2 % 16 * 16 + n3 / 4) :: (n3 % 4 * 64 + n4) :: tl
  | _ => none

/-! ### The authenticated result codec (`encodeResult` / `decodeResult`)

The source composes platform collaborators: `JSON.stringify` /
`JSON.parse` with UTF-8 (de)coding, and AES-GCM via `crypto.subtle`
with the process-wide `actionKey`.  Those collaborators are taken as
parameters (`stringify`, `parse`, `encrypt`, `decrypt`, the key being
closed over); the layout the source itself implements — hex nonce of
exactly 24 characters prepended to the base64 ciphertext, split again
at character 24 on decode — is concrete. -/

/-- `encodeResult` (source lines 178-191): hex of the 12-byte nonce
`iv` concatenated with base64 of the ciphertext. -/
def encodeResult (stringify : ActionResult → List Nat)
    (encrypt : List Nat → List Nat → List Nat)
    (iv : List Nat) (result : ActionResult) : List Char :=
  encodeHex iv ++ base64encode (encrypt iv (stringify result))

/-- `decodeResult` (source lines 193-206): the first 24 characters are
hex-decoded into the nonce, the remainder base64-decoded into the
ciphertext, then decrypted and parsed; any failing stage aborts. -/
def decodeResult (parse : List Nat → Option ActionResult)
    (decrypt : List Nat → List Nat → Option (List Nat))
    (encodedResult : List Char) : Option ActionResult :=
  (decodeHex (encodedResult.take 24)).bind fun iv =>
  (base64decode (encodedResult.drop 24)).bind fun dataArray =>
  (decrypt iv dataArray).bind parse

/-! ### The middleware model

`onRequest` (source lines 23-55) and its handlers are embedded as pure
functions from a request description and the incoming locals to a
`RunResult`: the outcome (rendered response, redirect, or thrown
error), the final locals, and a trace of observable effects. -/

/-- HTTP method of the incoming request. -/
inductive Method where
  | GET : Method
  | POST : Method
  | OTHER : Method
deriving DecidableEq

/-- Form data (`FormData`): an ordered multimap of fields. -/
def FormData := List (String × String)

/-- `FormData.get`: first value of a field, `null` when absent. -/
def formGet (fd : FormData) (key : String) : Option String :=
  (fd.find? fun p => p.fst = key).map Prod.snd

/-- A URL: a path plus its ordered query parameters. -/
structure Url where
  path : String
  params : List (String × String)
deriving DecidableEq

/-- `URLSearchParams.get`: value of the first occurrence of a key. -/
def getParam (u : Url) (key : String) : Option String :=
  (u.params.find? fun p => p.fst = key).map Prod.snd

/-- `URLSearchParams.set` on a parameter list: replace the first
occurrence in place, drop later occurrences, append when absent. -/
def setParamList : List (String × String) → String → String → List (String × String)
  | [], key, v => [(key, v)]
  | (k, w) :: rest, key, v =>
    if k = key then (key, v) :: rest.filter (fun p => p.fst ≠ key)
    else (k, w) :: setParamList rest key v

/-- `url.searchParams.set(key, v)` producing the updated URL. -/
def setParam (u : Url) (key v : String) : Url :=
  { path := u.path, params := setParamList u.params key v }

/-- JavaScript truthiness of a nullable string (`null` and the empty
string are falsy). -/
def truthyStr : Option String → Bool
  | none => false
  | some s => s ≠ ""

/-- Modelled from the spec: `getActionQueryString` (defined in
`virtual/shared`, outside the excerpt) is the stable ActionIdentity
string derived from an action's name, also used as the string form of
an action reference. -/
def getActionQueryString (name : String) : String :=
  "?__action=" ++ name

/-- The `_actionsInternal` context value installed on the request
locals: either a populated result context (from `handleResult`), the
warning stub for prerendered bodies (`nextWithStaticStub`), or the
plain no-result stub (`nextWithLocalsStub`). -/
inductive ActionsInternal where
  | resultCtx (actionName : String) (actionResult : ActionResult) : ActionsInternal
  | staticStub : ActionsInternal
  | localsStub : ActionsInternal

/-- The context's `getActionResult` closure, applied to the string
form (`toString`) of a caller-supplied action reference.  The
populated context answers only when that identity matches the stored
action's identity (source lines 96-101); both stubs always answer
`undefined`. -/
def ActionsInternal.getActionResult : ActionsInternal → String → Option ActionResult
  | ActionsInternal.resultCtx actionName actionResult, ref =>
    if ref ≠ getActionQueryString actionName then none else some actionResult
  | ActionsInternal.staticStub, _ => none
  | ActionsInternal.localsStub, _ => none

/-- Whether querying the context emits the prerender warning
(`console.warn` in `nextWithStaticStub`, source lines 156-162). -/
def ActionsInternal.warnsOnQuery : ActionsInternal → Bool
  | ActionsInternal.staticStub => true
  | _ => false

/-- The `_actionsInternal` slot of the request locals: absent, or
present with the `writable` property-descriptor flag. -/
structure LocalsEntry where
  value : ActionsInternal
  writable : Bool

/-- The request locals, reduced to their `_actionsInternal` slot. -/
abbrev Locals := Option LocalsEntry

/-- `Object.defineProperty(locals, '_actionsInternal', { writable:
false, value })`: succeeds on a fresh locals object, fails (throws
`TypeError`) when a non-writable slot is already present. -/
def defineProp (l : Locals) (v : ActionsInternal) : Option Locals :=
  match l with
  | none => some (some { value := v, writable := false })
  | some e => if e.writable then some (some { value := v, writable := false }) else none

/-- A plain assignment `locals._actionsInternal = v`: creates a
writable slot when absent, fails when the slot is non-writable. -/
def localsWrite (l : Locals) (v : ActionsInternal) : Option Locals :=
  match l with
  | none => some (some { value := v, writable := true })
  | some e => if e.writable then some (some { value := v, writable := e.writable }) else none

/-- A rendered HTTP response; body and headers are abstract tokens so
that "same body, same headers" is plain equality. -/
structure Response where
  body : Nat
  status : Nat
  statusText : String
  headers : Nat
deriving DecidableEq

/-- How the middleware terminates for the request. -/
inductive Outcome where
  | rendered (resp : Response) : Outcome
  | redirected (url : Url) : Outcome
  | thrown (msg : String) : Outcome

/-- Observable effect trace of one middleware run. -/
structure Effects where
  nextCalls : Nat
  invoked : List String
  getActionCalls : List String
  installs : Nat
deriving DecidableEq

/-- The empty effect trace. -/
def Effects.empty : Effects :=
  { nextCalls := 0, invoked := [], getActionCalls := [], installs := 0 }

/-- Result of one middleware run. -/
structure RunResult where
  outcome : Outcome
  locals : Locals
  effects : Effects

/-- The external collaborators and the downstream continuation the
middleware runs against: the action registry `getAction` (actions are
total functions, `callSafely` having absorbed any exception into an
`ActionResult`), the content-type classifier, the result codec, and
the downstream response produced by `next()`. -/
structure Env where
  getAction : String → Option (Option FormData → ActionResult)
  hasContentType : String → Bool
  encodeResult : ActionResult → String
  decodeResult : String → Option ActionResult
  next : Response

/-- An incoming request: method, URL, whether `request.body` is
`null`, the `content-type` header, and the form fields the body parses
to when it is form-encoded. -/
structure Request where
  method : Method
  url : Url
  bodyNull : Bool
  contentType : Option String
  form : FormData

/-- The thrown `TypeError` of a failing `Object.defineProperty`. -/
def propertyError (l : Locals) : RunResult :=
  { outcome := Outcome.thrown "TypeError: Cannot redefine property: _actionsInternal",
    locals := l, effects := Effects.empty }

/-- `nextWithStaticStub` (source lines 152-166): install the warning
stub non-writably and run the downstream continuation. -/
def runNextWithStaticStub (env : Env) (l : Locals) : RunResult :=
  match defineProp l ActionsInternal.staticStub with
  | none => propertyError l
  | some l2 =>
    { outcome := Outcome.rendered env.next, locals := l2,
      effects := { nextCalls := 1, invoked := [], getActionCalls := [], installs := 1 } }

/-- `nextWithLocalsStub` (source lines 168-176): install the plain
no-result stub non-writably and run the downstream continuation. -/
def runNextWithLocalsStub (env : Env) (l : Locals) : RunResult :=
  match defineProp l ActionsInternal.localsStub with
  | none => propertyError l
  | some l2 =>
    { outcome := Outcome.rendered env.next, locals := l2,
      effects := { nextCalls := 1, invoked := [], getActionCalls := [], installs := 1 } }

/-- The `formData` local of `handlePost` / `handlePostLegacy` (source
lines 76-80 and 129-133): the parsed form when the content-type header
is present, truthy and form-like, `undefined` otherwise. -/
def parsedFormData (env : Env) (req : Request) : Option FormData :=
  match req.contentType with
  | none => none
  | some ct => if ct ≠ "" ∧ env.hasContentType ct = true then some req.form else none

/-- `handleResult` (source lines 89-118): install the populated result
context non-writably, run the downstream continuation, and, when the
stored result is an error, rebuild the response around the downstream
body and headers with the error's status and type. -/
def runHandleResult (env : Env) (l : Locals) (actionName : String)
    (actionResult : ActionResult) : RunResult :=
  match defineProp l (ActionsInternal.resultCtx actionName actionResult) with
  | none => propertyError l
  | some l2 =>
    let response := env.next
    let final : Response :=
      match actionResult with
      | ActionResult.error st ty _ =>
        { body := response.body, status := st, statusText := ty, headers := response.headers }
      | ActionResult.ok _ => response
    { outcome := Outcome.rendered final, locals := l2,
      effects := { nextCalls := 1, invoked := [], getActionCalls := [], installs := 1 } }

/-- `handlePost` (source lines 57-87): stub when the body stream is
`null`; otherwise resolve the action (throwing when unknown), invoke
it safely on the parsed form data, and redirect to the same URL with
`__result` set to the encoded result — never calling `next()`. -/
def runHandlePost (env : Env) (req : Request) (l : Locals) (actionName : String) : RunResult :=
  if req.bodyNull then runNextWithStaticStub env l
  else
    match env.getAction actionName with
    | none =>
      { outcome := Outcome.thrown ("Action \"" ++ actionName ++ "\" not found."),
        locals := l,
        effects := { nextCalls := 0, invoked := [], getActionCalls := [actionName], installs := 0 } }
    | some action =>
      let formData := parsedFormData env req
      let result := action formData
      let redirectUrl := setParam req.url "__result" (env.encodeResult result)
      { outcome := Outcome.redirected redirectUrl, locals := l,
        effects := { nextCalls := 0, invoked := [actionName],
                     getActionCalls := [actionName], installs := 0 } }

/-- `handlePostLegacy` (source lines 120-150): stub when the body is
`null`; otherwise parse the form if form-like, fall back to the plain
stub when there is no form or no truthy `__action` field, and
otherwise resolve and invoke the action and deliver its result through
`handleResult` in the same request. -/
def runHandlePostLegacy (env : Env) (req : Request) (l : Locals) : RunResult :=
  if req.bodyNull then runNextWithStaticStub env l
  else
    match parsedFormData env req with
    | none => runNextWithLocalsStub env l
    | some fd =>
      match formGet fd "__action" with
      | none => runNextWithLocalsStub env l
      | some a =>
        if a = "" then runNextWithLocalsStub env l
        else
          match env.getAction a with
          | none =>
            { outcome := Outcome.thrown ("Action \"" ++ a ++ "\" not found."),
              locals := l,
              effects := { nextCalls := 0, invoked := [], getActionCalls := [a], installs := 0 } }
          | some action =>
            let result := action (some fd)
            let rr := runHandleResult env l a result
            { outcome := rr.outcome, locals := rr.locals,
              effects := { nextCalls := rr.effects.nextCalls,
                           invoked := a :: rr.effects.invoked,
                           getActionCalls := a :: rr.effects.getActionCalls,
                           installs := rr.effects.installs } }

/-- `onRequest` (source lines 23-55): short-circuit when a context is
already installed; otherwise dispatch on the method and the truthiness
of the `__action` and `__result` query parameters, exactly in source
order. -/
def onRequest (env : Env) (req : Request) (l : Locals) : RunResult :=
  if l.isSome then
    { outcome := Outcome.rendered env.next, locals := l,
      effects := { nextCalls := 1, invoked := [], getActionCalls := [], installs := 0 } }
  else
    let actionName := getParam req.url "__action"
    let encodedActionResult := getParam req.url "__result"
    if req.method = Method.GET ∧ truthyStr actionName = true ∧
        truthyStr encodedActionResult = true then
      match env.decodeResult (encodedActionResult.getD "") with
      | none =>
        { outcome := Outcome.thrown "DecryptionError", locals := l, effects := Effects.empty }
      | some actionResult => runHandleResult env l (actionName.getD "") actionResult
    else if req.method = Method.POST ∧ truthyStr actionName = true then
      runHandlePost env req l (actionName.getD "")
    else if req.method = Method.GET ∧ truthyStr actionName = true then
      { outcome := Outcome.thrown
          "Actions cannot be invoked with GET requests. Did you forget to set method=\"post\" on your form?",
        locals := l, effects := Effects.empty }
    else if req.method = Method.POST then
      runHandlePostLegacy env req l
    else
      runNextWithLocalsStub env l

/-! ### Concrete instances used by the witnesses -/

/-- A concrete JSON payload. -/
def jW : Json := Json.str "done"

/-- A concrete success result. -/
def rOkW : ActionResult := ActionResult.ok jW

/-- A concrete error result with declared status 400. -/
def rErrW : ActionResult := ActionResult.error 400 "BadRequest" "bad input"

/-- A concrete registered action. -/
def incrementW : Option FormData → ActionResult := fun _ => rOkW

/-- A concrete environment: one registered action, a form content-type
classifier, an abstract envelope codec and a fixed downstream
response. -/
def envW : Env :=
  { getAction := fun n => if n = "increment" then some incrementW else none,
    hasContentType := fun ct => ct = "application/x-www-form-urlencoded",
    encodeResult := fun _ => "ENVELOPE",
    decodeResult := fun s =>
      if s = "ENCOK" then some rOkW else if s = "ENCERR" then some rErrW else none,
    next := { body := 7, status := 200, statusText := "OK", headers := 3 } }

/-- A fresh POST invocation request. -/
def reqPostW : Request :=
  { method := Method.POST,
    url := { path := "/page", params := [("__action", "increment")] },
    bodyNull := false,
    contentType := some "application/x-www-form-urlencoded",
    form := [("count", "1")] }

/-- A GET result-delivery request carrying a decodable error envelope. -/
def reqGetErrW : Request :=
  { method := Method.GET,
    url := { path := "/page", params := [("__action", "increment"), ("__result", "ENCERR")] },
    bodyNull := true,
    contentType := none,
    form := [] }

/-- A GET result-delivery request carrying a decodable success
envelope, its action name never looked up in the registry. -/
def reqGetOkW : Request :=
  { method := Method.GET,
    url := { path := "/page", params := [("__action", "unregistered"), ("__result", "ENCOK")] },
    bodyNull := true,
    contentType := none,
    form := [] }

/-- A GET request attempting to invoke an action (no `__result`). -/
def reqGetNoResW : Request :=
  { method := Method.GET,
    url := { path := "/page", params := [("__action", "increment")] },
    bodyNull := true,
    contentType := none,
    form := [] }

/-- A legacy POST request: no `__action` query parameter, the action
named in a form field instead. -/
def reqLegacyW : Request :=
  { method := Method.POST,
    url := { path := "/page", params := [] },
    bodyNull := false,
    contentType := some "application/x-www-form-urlencoded",
    form := [("__action", "increment"), ("count", "1")] }

/-- A POST invocation request whose body stream is `null`. -/
def reqNullBodyW : Request :=
  { method := Method.POST,
    url := { path := "/page", params := [("__action", "increment")] },
    bodyNull := true,
    contentType := none,
    form := [] }

/-- An ordinary GET page request, no action parameters at all. -/
def reqPlainW : Request :=
  { method := Method.GET,
    url := { path := "/page", params := [] },
    bodyNull := true,
    contentType := none,
    form := [] }

/-- Locals that already carry an installed context (re-entry). -/
def localsPreW : Locals :=
  some { value := ActionsInternal.localsStub, writable := false }

/-- Concrete serialiser standing in for `JSON.stringify` + UTF-8. -/
def stringifyW : ActionResult → List Nat := fun _ => [104, 105]

/-- Concrete parser standing in for UTF-8 decode + `JSON.parse`. -/
def parseW : List Nat → Option ActionResult := fun bs =>
  if bs = [104, 105] then some rOkW else none

/-- Concrete cipher standing in for AES-GCM encryption. -/
def encryptW : List Nat → List Nat → List Nat := fun _ data => data

/-- Concrete cipher standing in for AES-GCM decryption. -/
def decryptW : List Nat → List Nat → Option (List Nat) := fun _ data => some data

/-- A concrete 12-byte nonce. -/
def ivW : List Nat := [0, 1, 2, 3, 4, 5, 6, 7, 8, 9, 10, 11]

/-! ### Helper lemmas -/

theorem decodeHexDigit_hexDigitChar : ∀ n < 16, decodeHexDigit (hexDigitChar n) = some n := by
  decide

theorem encodeHex_length (bs : List Nat) : (encodeHex bs).length = 2 * bs.length := by
  induction bs with
  | nil => rfl
  | cons b tl ih =>
    simp only [encodeHex, List.flatMap_cons, List.length_append] at ih ⊢
    simp [encodeHexByte, ih]
    omega

theorem decodeHex_encodeHex (bs : List Nat) (h : ∀ b ∈ bs, b < 256) :
    decodeHex (encodeHex bs) = some bs := by
  induction bs with
  | nil => rfl
  | cons b tl ih =>
    have hb : b < 256 := h b (List.mem_cons_self b tl)
    have htl : ∀ x ∈ tl, x < 256 := fun x hx => h x (List.mem_cons_of_mem b hx)
    have h1 : decodeHexDigit (hexDigitChar (b / 16)) = some (b / 16) :=
      decodeHexDigit_hexDigitChar (b / 16) (by omega)
    have h2 : decodeHexDigit (hexDigitChar (b % 16)) = some (b % 16) :=
      decodeHexDigit_hexDigitChar (b % 16) (by omega)
    have henc : encodeHex (b :: tl) =
        hexDigitChar (b / 16) :: hexDigitChar (b % 16) :: encodeHex tl := by
      simp [encodeHex, encodeHexByte]
    have hre : b / 16 * 16 + b % 16 = b := by omega
    rw [henc]
    simp [decodeHex, h1, h2, ih htl, hre]

theorem b64Index_b64Char : ∀ n < 64, b64Index (b64Char n) = some n := by
  decide

theorem b64Char_ne_pad : ∀ n < 64, b64Char n ≠ '=' := by
  decide

theorem base64decode_base64encode (bs : List Nat) (h : ∀ b ∈ bs, b < 256) :
    base64decode (base64encode bs) = some bs := by
  induction bs using base64encode.induct with
  | case1 => rfl
  | case2 a =>
    have ha : a < 256 := h a (by simp)
    rw [base64encode, base64decode]
    rw [b64Index_b64Char (a / 4) (by omega), b64Index_b64Char (a % 4 * 16) (by omega)]
    simp only [Option.some_bind, if_pos rfl, and_self, if_pos]
    have : a / 4 * 4 + a % 4 * 16 / 16 = a := by omega
    rw [this]
  | case3 a b =>
    have ha : a < 256 := h a (by simp)
    have hb : b < 256 := h b (by simp)
    rw [base64encode, base64decode]
    rw [b64Index_b64Char (a / 4) (by omega),
      b64Index_b64Char (a % 4 * 16 + b / 16) (by omega)]
    simp only [Option.some_bind]
    rw [if_neg (b64Char_ne_pad (b % 16 * 4) (by omega))]
    rw [b64Index_b64Char (b % 16 * 4) (by omega)]
    have h1 : a / 4 * 4 + (a % 4 * 16 + b / 16) / 16 = a := by omega
    have h2 : (a % 4 * 16 + b / 16) % 16 * 16 + b % 16 = b := by omega
    simp [h1, h2]
  | case4 a b c rest ih =>
    have ha : a < 256 := h a (by simp)
    have hb : b < 256 := h b (by simp)
    have hc : c < 256 := h c (by simp)
    have hrest : ∀ x ∈ rest, x < 256 := fun x hx => h x (by simp [hx])
    rw [base64encode, base64decode]
    rw [b64Index_b64Char (a / 4) (by omega),
      b64Index_b64Char (a % 4 * 16 + b / 16) (by omega)]
    simp only [Option.some_bind]
    rw [if_neg (b64Char_ne_pad (b % 16 * 4 + c / 64) (by omega))]
    rw [b64Index_b64Char (b % 16 * 4 + c / 64) (by omega)]
    simp only [Option.some_bind]
    rw [if_neg (b64Char_ne_pad (c % 64) (by omega))]
    rw [b64Index_b64Char (c % 64) (by omega)]
    simp only [Option.some_bind, ih hrest]
    have h1 : a / 4 * 4 + (a % 4 * 16 + b / 16) / 16 = a := by omega
    have h2 : (a % 4 * 16 + b / 16) % 16 * 16 + (b % 16 * 4 + c / 64) / 4 = b := by omega
    have h3 : (b % 16 * 4 + c / 64) % 4 * 64 + c % 64 = c := by omega
    simp [h1, h2, h3]

theorem codec_take_drop (pre post : List Char) (h : pre.length = 24) :
    (pre ++ post).take 24 = pre ∧ (pre ++ post).drop 24 = post := by
  constructor
  · rw [← h, List.take_left]
  · rw [← h, List.drop_left]

/-! ### The claims -/

/-- C1: for every JSON-serializable `ActionResult` `r` (a result the
serialiser round-trips) and every fresh 12-byte nonce, decoding the
string produced by encoding `r` — hex nonce of 24 characters
concatenated with base64 AES-GCM ciphertext, split again at character
24 — yields `r` again, given the AEAD cipher's decrypt-of-encrypt
identity. -/
theorem C1_decodeResult_encodeResult
    (stringify : ActionResult → List Nat) (parse : List Nat → Option ActionResult)
    (encrypt : List Nat → List Nat → List Nat)
    (decrypt : List Nat → List Nat → Option (List Nat))
    (r : ActionResult) (iv : List Nat)
    (hlen : iv.length = 12) (hiv : ∀ b ∈ iv, b < 256)
    (hct : ∀ b ∈ encrypt iv (stringify r), b < 256)
    (hdec : decrypt iv (encrypt iv (stringify r)) = some (stringify r))
    (hparse : parse (stringify r) = some r) :
    decodeResult parse decrypt (encodeResult stringify encrypt iv r) = some r := by
  have hpre : (encodeHex iv).length = 24 := by rw [encodeHex_length, hlen]
  obtain ⟨ht, hd⟩ :=
    codec_take_drop (encodeHex iv) (base64encode (encrypt iv (stringify r))) hpre
  unfold encodeResult decodeResult
  rw [ht, hd, decodeHex_encodeHex iv hiv, base64decode_base64encode _ hct]
  simp [hdec, hparse]

/-- Witness for C1 at a concrete result, nonce and collaborators. -/
theorem C1_witness :
    ivW.length = 12 ∧
    decodeResult parseW decryptW (encodeResult stringifyW encryptW ivW rOkW) = some rOkW :=
  ⟨rfl, C1_decodeResult_encodeResult stringifyW parseW encryptW decryptW rOkW ivW
    rfl (by decide) (by decide) rfl (by rfl)⟩

/-- C3: a request whose locals already carry the `_actionsInternal`
context short-circuits to the downstream continuation: the locals are
returned unchanged, no context is installed and no action is
executed. -/
theorem C3_reentry_short_circuit (env : Env) (req : Request) (l : Locals)
    (h : l.isSome = true) :
    onRequest env req l =
      { outcome := Outcome.rendered env.next, locals := l,
        effects := { nextCalls := 1, invoked := [], getActionCalls := [], installs := 0 } } := by
  unfold onRequest
  simp [h]

/-- Witness for C3 on locals that already carry a context. -/
theorem C3_witness :
    onRequest envW reqPostW localsPreW =
      { outcome := Outcome.rendered envW.next, locals := localsPreW,
        effects := { nextCalls := 1, invoked := [], getActionCalls := [], installs := 0 } } :=
  C3_reentry_short_circuit envW reqPostW localsPreW rfl

/-- C5: a populated result context for action identity `A` answers
`undefined` to a reference whose identity differs from `A`, and the
stored result to a reference whose identity equals `A`. -/
theorem C5_getActionResult_identity (A : String) (r : ActionResult) (ref : String) :
    (ref ≠ getActionQueryString A →
      ActionsInternal.getActionResult (ActionsInternal.resultCtx A r) ref = none) ∧
    (ref = getActionQueryString A →
      ActionsInternal.getActionResult (ActionsInternal.resultCtx A r) ref = some r) := by
  constructor <;> intro h <;> simp [ActionsInternal.getActionResult, h]

/-- Witness for C5: a context for `increment` queried via a different
reference and via the matching reference. -/
theorem C5_witness :
    ActionsInternal.getActionResult (ActionsInternal.resultCtx "increment" rOkW)
      "?__action=other" = none ∧
    ActionsInternal.getActionResult (ActionsInternal.resultCtx "increment" rOkW)
      "?__action=increment" = some rOkW :=
  ⟨(C5_getActionResult_identity "increment" rOkW "?__action=other").1 (by decide),
   (C5_getActionResult_identity "increment" rOkW "?__action=increment").2 (by decide)⟩

/-- C2: a POST request carrying a truthy `__action` query parameter,
with a non-null body and an action name resolving in the registry,
invokes the action safely and redirects to the same URL with
`__result` set to the encoded result, never calling the downstream
continuation — for success and error results alike, since the single
redirect branch does not inspect the result. -/
theorem C2_post_redirects (env : Env) (req : Request) (a : String)
    (f : Option FormData → ActionResult)
    (hm : req.method = Method.POST)
    (ha : getParam req.url "__action" = some a) (ha' : a ≠ "")
    (hbody : req.bodyNull = false)
    (hreg : env.getAction a = some f) :
    (onRequest env req none).outcome =
      Outcome.redirected
        (setParam req.url "__result" (env.encodeResult (f (parsedFormData env req)))) ∧
    (onRequest env req none).effects.invoked = [a] ∧
    (onRequest env req none).effects.nextCalls = 0 := by
  unfold onRequest runHandlePost
  simp [hm, ha, ha', hbody, hreg, truthyStr]

/-- Witness for C2 at the concrete POST invocation request. -/
theorem C2_witness :
    (onRequest envW reqPostW none).outcome =
      Outcome.redirected
        (setParam reqPostW.url "__result"
          (envW.encodeResult (incrementW (parsedFormData envW reqPostW)))) ∧
    (onRequest envW reqPostW none).effects.invoked = ["increment"] ∧
    (onRequest envW reqPostW none).effects.nextCalls = 0 :=
  C2_post_redirects envW reqPostW "increment" incrementW rfl (by rfl) (by decide) rfl (by rfl)

/-- C4: on the GET result-delivery path, when the decoded result is an
error the final response carries the error's declared status as status
code and the error's type as status text while keeping the downstream
body and headers; when the decoded result is a success the downstream
response is returned unchanged. -/
theorem C4_error_status_rewrite (env : Env) (req : Request) (a enc : String)
    (r : ActionResult)
    (hm : req.method = Method.GET)
    (ha : getParam req.url "__action" = some a) (ha' : a ≠ "")
    (he : getParam req.url "__result" = some enc) (he' : enc ≠ "")
    (hdec : env.decodeResult enc = some r) :
    (∀ st ty msg, r = ActionResult.error st ty msg →
      (onRequest env req none).outcome =
        Outcome.rendered
          { body := env.next.body, status := st, statusText := ty,
            headers := env.next.headers }) ∧
    (∀ d, r = ActionResult.ok d →
      (onRequest env req none).outcome = Outcome.rendered env.next) := by
  unfold onRequest runHandleResult
  constructor
  · intro st ty msg hr
    subst hr
    simp [hm, ha, ha', he, he', hdec, truthyStr, defineProp]
  · intro d hr
    subst hr
    simp [hm, ha, ha', he, he', hdec, truthyStr, defineProp]

/-- Witness for C4 at the concrete error-envelope request. -/
theorem C4_witness :
    (onRequest envW reqGetErrW none).outcome =
      Outcome.rendered
        { body := envW.next.body, status := 400, statusText := "BadRequest",
          headers := envW.next.headers } :=
  (C4_error_status_rewrite envW reqGetErrW "increment" "ENCERR" rErrW rfl
    (by rfl) (by decide) (by rfl) (by decide) (by rfl)).1 400 "BadRequest" "bad input" rfl

/-- C6: a GET request with a truthy `__action` query parameter and no
`__result` fails with the invalid-invocation error, executing no
action and never proceeding downstream. -/
theorem C6_get_invocation_throws (env : Env) (req : Request) (a : String)
    (hm : req.method = Method.GET)
    (ha : getParam req.url "__action" = some a) (ha' : a ≠ "")
    (hr : getParam req.url "__result" = none) :
    (onRequest env req none).outcome =
      Outcome.thrown
        "Actions cannot be invoked with GET requests. Did you forget to set method=\"post\" on your form?" ∧
    (onRequest env req none).effects.invoked = [] ∧
    (onRequest env req none).effects.nextCalls = 0 := by
  unfold onRequest
  simp [hm, ha, ha', hr, truthyStr, Effects.empty]

/-- Witness for C6 at the concrete GET invocation attempt. -/
theorem C6_witness :
    (onRequest envW reqGetNoResW none).outcome =
      Outcome.thrown
        "Actions cannot be invoked with GET requests. Did you forget to set method=\"post\" on your form?" ∧
    (onRequest envW reqGetNoResW none).effects.invoked = [] ∧
    (onRequest envW reqGetNoResW none).effects.nextCalls = 0 :=
  C6_get_invocation_throws envW reqGetNoResW "increment" rfl (by rfl) (by decide) (by rfl)

/-- C7: a legacy POST (no `__action` query parameter, non-null body):
when the form parses and carries a truthy `__action` field naming a
registered action, the action is invoked and its result delivered by
installing the result context and rendering in the same request cycle,
with no redirect; when the content-type is not form-like or the form
has no `__action` field, the plain no-result stub is installed and the
request proceeds downstream unchanged. -/
theorem C7_legacy_post (env : Env) (req : Request)
    (hm : req.method = Method.POST)
    (hq : getParam req.url "__action" = none)
    (hb : req.bodyNull = false) :
    (∀ fd a f, parsedFormData env req = some fd →
      formGet fd "__action" = some a → a ≠ "" → env.getAction a = some f →
      (onRequest env req none).locals =
        some { value := ActionsInternal.resultCtx a (f (some fd)), writable := false } ∧
      (onRequest env req none).effects.invoked = [a] ∧
      (onRequest env req none).effects.nextCalls = 1 ∧
      ∀ u, (onRequest env req none).outcome ≠ Outcome.redirected u) ∧
    ((parsedFormData env req = none ∨
        (∃ fd, parsedFormData env req = some fd ∧ formGet fd "__action" = none)) →
      (onRequest env req none).locals =
        some { value := ActionsInternal.localsStub, writable := false } ∧
      (onRequest env req none).outcome = Outcome.rendered env.next ∧
      (onRequest env req none).effects.invoked = []) := by
  unfold onRequest runHandlePostLegacy
  constructor
  · intro fd a f hfd hfa ha' hreg
    simp only [hm, hq, truthyStr, hb, hfd, hfa, hreg]
    cases hres : f (some fd) <;>
      simp [runHandleResult, defineProp, hres, ha', Option.isSome_none]
  · rintro (hfd | ⟨fd, hfd, hfa⟩)
    · simp [hm, hq, truthyStr, hb, hfd, runNextWithLocalsStub, defineProp]
    · simp [hm, hq, truthyStr, hb, hfd, hfa, runNextWithLocalsStub, defineProp]

/-- Witness for C7 at the concrete legacy form POST. -/
theorem C7_witness :
    (onRequest envW reqLegacyW none).locals =
      some { value := ActionsInternal.resultCtx "increment"
               (incrementW (some reqLegacyW.form)), writable := false } ∧
    (onRequest envW reqLegacyW none).effects.invoked = ["increment"] ∧
    (onRequest envW reqLegacyW none).effects.nextCalls = 1 ∧
    ∀ u, (onRequest envW reqLegacyW none).outcome ≠ Outcome.redirected u :=
  (C7_legacy_post envW reqLegacyW rfl (by rfl) rfl).1 reqLegacyW.form "increment"
    incrementW (by rfl) (by rfl) (by decide) (by rfl)

/-- C9: a POST whose body stream is `null` — with or without the
`__action` query parameter — installs the non-writable static stub,
whose queries always answer `undefined` and emit the prerender
warning, proceeds downstream, and invokes no action. -/
theorem C9_null_body_static_stub (env : Env) (req : Request)
    (hm : req.method = Method.POST) (hb : req.bodyNull = true) :
    (onRequest env req none).locals =
      some { value := ActionsInternal.staticStub, writable := false } ∧
    (onRequest env req none).outcome = Outcome.rendered env.next ∧
    (onRequest env req none).effects.nextCalls = 1 ∧
    (onRequest env req none).effects.invoked = [] ∧
    (∀ ref, ActionsInternal.getActionResult ActionsInternal.staticStub ref = none) ∧
    ActionsInternal.warnsOnQuery ActionsInternal.staticStub = true := by
  unfold onRequest runHandlePost runHandlePostLegacy
  by_cases hA : truthyStr (getParam req.url "__action") = true <;>
    simp [hm, hb, hA, runNextWithStaticStub, defineProp,
      ActionsInternal.getActionResult, ActionsInternal.warnsOnQuery]

/-- Witness for C9 at the concrete null-body POST. -/
theorem C9_witness :
    (onRequest envW reqNullBodyW none).locals =
      some { value := ActionsInternal.staticStub, writable := false } ∧
    (onRequest envW reqNullBodyW none).outcome = Outcome.rendered envW.next ∧
    (onRequest envW reqNullBodyW none).effects.nextCalls = 1 ∧
    (onRequest envW reqNullBodyW none).effects.invoked = [] ∧
    (∀ ref, ActionsInternal.getActionResult ActionsInternal.staticStub ref = none) ∧
    ActionsInternal.warnsOnQuery ActionsInternal.staticStub = true :=
  C9_null_body_static_stub envW reqNullBodyW rfl rfl

/-- C10: on the GET result-delivery path, provided the `__result`
envelope decodes, the registry is never consulted, a context is
installed for whatever action name the URL carries — registered or
not — and no error is thrown. -/
theorem C10_result_path_no_registry (env : Env) (req : Request) (a enc : String)
    (r : ActionResult)
    (hm : req.method = Method.GET)
    (ha : getParam req.url "__action" = some a) (ha' : a ≠ "")
    (he : getParam req.url "__result" = some enc) (he' : enc ≠ "")
    (hdec : env.decodeResult enc = some r) :
    (onRequest env req none).effects.getActionCalls = [] ∧
    (onRequest env req none).locals =
      some { value := ActionsInternal.resultCtx a r, writable := false } ∧
    ∀ m, (onRequest env req none).outcome ≠ Outcome.thrown m := by
  unfold onRequest runHandleResult
  cases r <;> simp [hm, ha, ha', he, he', hdec, truthyStr, defineProp]

/-- Witness for C10 at a result-delivery request naming an action
absent from the registry. -/
theorem C10_witness :
    envW.getAction "unregistered" = none ∧
    (onRequest envW reqGetOkW none).effects.getActionCalls = [] ∧
    (onRequest envW reqGetOkW none).locals =
      some { value := ActionsInternal.resultCtx "unregistered" rOkW, writable := false } ∧
    ∀ m, (onRequest envW reqGetOkW none).outcome ≠ Outcome.thrown m :=
  ⟨by rfl,
   C10_result_path_no_registry envW reqGetOkW "unregistered" "ENCOK" rOkW rfl
    (by rfl) (by decide) (by rfl) (by decide) (by rfl)⟩

/-- C8: whenever a fresh run of the dispatcher ends by rendering (the
result-delivery path, the null-body stubs, the legacy POST paths and
the plain fallback — every path that is neither a redirect nor a
thrown error), exactly one `_actionsInternal` context has been
installed, it is non-writable, and any subsequent write attempt to the
slot fails. -/
theorem C8_context_installed_once (env : Env) (req : Request) (resp : Response)
    (h : (onRequest env req none).outcome = Outcome.rendered resp) :
    (∃ ai, (onRequest env req none).locals =
      some { value := ai, writable := false }) ∧
    (onRequest env req none).effects.installs = 1 ∧
    ∀ v, localsWrite (onRequest env req none).locals v = none := by
  unfold onRequest at h ⊢
  simp only [Option.isSome_none, Bool.false_eq_true, if_false] at h ⊢
  by_cases h1 : req.method = Method.GET ∧ truthyStr (getParam req.url "__action") = true ∧
      truthyStr (getParam req.url "__result") = true
  · rw [if_pos h1] at h ⊢
    cases hdec : env.decodeResult ((getParam req.url "__result").getD "") with
    | none => rw [hdec] at h; simp at h
    | some r => simp [runHandleResult, defineProp, localsWrite]
  · rw [if_neg h1] at h ⊢
    by_cases h2 : req.method = Method.POST ∧ truthyStr (getParam req.url "__action") = true
    · rw [if_pos h2] at h ⊢
      unfold runHandlePost at h ⊢
      cases hb : req.bodyNull with
      | true => simp [runNextWithStaticStub, defineProp, localsWrite]
      | false =>
        rw [hb] at h
        simp only [Bool.false_eq_true, if_false] at h
        cases hga : env.getAction ((getParam req.url "__action").getD "") with
        | none => rw [hga] at h; simp at h
        | some f => rw [hga] at h; simp at h
    · rw [if_neg h2] at h ⊢
      by_cases h3 : req.method = Method.GET ∧ truthyStr (getParam req.url "__action") = true
      · rw [if_pos h3] at h; simp at h
      · rw [if_neg h3] at h ⊢
        by_cases h4 : req.method = Method.POST
        · rw [if_pos h4] at h ⊢
          unfold runHandlePostLegacy at h ⊢
          cases hb : req.bodyNull with
          | true => simp [runNextWithStaticStub, defineProp, localsWrite]
          | false =>
            rw [hb] at h
            simp only [Bool.false_eq_true, if_false] at h ⊢
            cases hfd : parsedFormData env req with
            | none => simp [runNextWithLocalsStub, defineProp, localsWrite]
            | some fd =>
              cases hfa : formGet fd "__action" with
              | none => simp [hfa, runNextWithLocalsStub, defineProp, localsWrite]
              | some a =>
                by_cases haz : a = ""
                · simp [hfa, haz, runNextWithLocalsStub, defineProp, localsWrite]
                · cases hga : env.getAction a with
                  | none => simp [hfd, hfa, haz, hga] at h
                  | some f =>
                    simp [hfa, haz, hga, runHandleResult, defineProp, localsWrite]
        · rw [if_neg h4] at h ⊢
          simp [runNextWithLocalsStub, defineProp, localsWrite]

/-- Witness for C8 at the ordinary page request. -/
theorem C8_witness :
    (∃ ai, (onRequest envW reqPlainW none).locals =
      some { value := ai, writable := false }) ∧
    (onRequest envW reqPlainW none).effects.installs = 1 ∧
    ∀ v, localsWrite (onRequest envW reqPlainW none).locals v = none :=
  C8_context_installed_once envW reqPlainW envW.next (by rfl)

end AstroActions
